import Mathlib

/-!
# Shallow embedding of the sheet-to-sound backend

The backend is a Hono edge function exposing upload / convert / status /
library / delete handlers over a string-keyed metadata KV store, a blob
store and an identity provider.  The KV store is modelled as a partial map
from string keys to stored documents; blob-store and signed-URL outcomes
are passed to the operations as explicit parameters (their failures are
what the handlers branch on); handlers are modelled from the point where
authentication has succeeded, so every operation takes the caller's user
id.  ISO-8601 timestamps are modelled as natural numbers (milliseconds
since the epoch), which preserves their ordering; `Date.now()` and
`new Date()` taken in the same handler are modelled as one `now`.
-/

namespace SheetToSound

/-- Individual voice settings of a SATB configuration (from `types.ts`). -/
structure VoiceSettings where
  enabled : Bool
  solo : Bool
  volume : Int
deriving DecidableEq, Repr

/-- The server stores `satbConfig` verbatim; a JS object is modelled as an
association list of (voice name, settings).  The server-side default `{}`
is `[]`. -/
abbrev SATBConfig := List (String × VoiceSettings)

/-- Score metadata document, as built by the upload handler. -/
structure Score where
  id : String
  userId : String
  fileName : String
  filePath : String
  fileType : String
  fileSize : Nat
  uploadedAt : Nat
  url : String
deriving DecidableEq, Repr

/-- The `status` field of a Conversion. -/
inductive ConvStatus
  | processing
  | completed
  | failed
deriving DecidableEq, Repr

/-- Conversion document.  The fields absent at creation time (JS
`undefined`) are modelled as `Option` with default `none`. -/
structure Conversion where
  id : String
  scoreId : String
  userId : String
  instruments : List String
  satbConfig : SATBConfig
  tempo : Int
  status : ConvStatus
  createdAt : Nat
  completedAt : Option Nat := none
  audioUrl : Option String := none
  midiUrl : Option String := none
  audioPath : Option String := none
  midiPath : Option String := none
  error : Option String := none
deriving DecidableEq, Repr

/-- A document stored in the KV store: a Score, a Conversion, or a
per-user index (an array of entity ids). -/
inductive KVValue
  | score (s : Score)
  | conv (c : Conversion)
  | index (ids : List String)
deriving DecidableEq, Repr

/-- The KV store state: a partial map from keys to documents. -/
def KV := String → Option KVValue

/-- The empty store. -/
def kvEmpty : KV := fun _ => none

namespace kv

/-- Models `kv.get`. -/
def get (st : KV) (k : String) : Option KVValue := st k

/-- Models `kv.set`. -/
def set (st : KV) (k : String) (v : KVValue) : KV :=
  fun q => if q = k then some v else st q

/-- Models `kv.del`. -/
def del (st : KV) (k : String) : KV :=
  fun q => if q = k then none else st q

/-- Modelled from the spec: `kv_store.tsx` (imported by the server but not
present under `src/`) provides a multi-get returning the values of the
keys that are present, and the spec says listing "multi-fetches all
referenced Score and Conversion records (tolerating missing entries …
by silently omitting them)". -/
def mget (st : KV) (ks : List String) : List KVValue := ks.filterMap st

end kv

/-- JS property access `v.userId` on a stored document (`undefined`, i.e.
`none`, when the document has no such property). -/
def KVValue.userIdField : KVValue → Option String
  | .score s => some s.userId
  | .conv c => some c.userId
  | .index _ => none

/-- JS property access `v.id`. -/
def KVValue.idField : KVValue → Option String
  | .score s => some s.id
  | .conv c => some c.id
  | .index _ => none

/-- JS property access `v.scoreId` (only Conversions carry one). -/
def KVValue.scoreIdField : KVValue → Option String
  | .conv c => some c.scoreId
  | _ => none

/-- JS property access `v.uploadedAt` (only Scores carry one). -/
def KVValue.uploadedAtField : KVValue → Option Nat
  | .score s => some s.uploadedAt
  | _ => none

/-- Key of the per-user score index: `user_scores_${user.id}`. -/
def userScoresKey (u : String) : String := "user_scores_" ++ u

/-- Key of the per-user conversion index: `user_conversions_${user.id}`. -/
def userConversionsKey (u : String) : String := "user_conversions_" ++ u

/-- The id template `score_${user.id}_${timestamp}`. -/
def mkScoreId (u : String) (t : Nat) : String :=
  "score_" ++ u ++ "_" ++ toString t

/-- The id template `conversion_${user.id}_${Date.now()}`. -/
def mkConversionId (u : String) (t : Nat) : String :=
  "conversion_" ++ u ++ "_" ++ toString t

/-- Models `await kv.get(key) || []` where the handlers then use the value as an
array of ids: the stored array, or `[]` when the key is absent.  (All
states in scope keep index keys holding arrays; on any other value the
JS spread would throw.) -/
def indexOr : Option KVValue → List String
  | some (.index ids) => ids
  | _ => []

/-- The ownership test `!record || record.userId !== user.id` used by the
convert, status and delete handlers, in positive form: a record exists
and its `userId` equals the caller (`undefined !== user.id` holds for
documents without a `userId` property). -/
def ownedBy (v : Option KVValue) (user : String) : Bool :=
  match v with
  | some w => w.userIdField == some user
  | none => false

/-- An error response: HTTP status code plus the JSON `error` message. -/
structure ErrResp where
  status : Nat
  msg : String
deriving DecidableEq, Repr

deriving instance DecidableEq for Except

/-- The response `{ error: 'Score not found or access denied' }, 404`. -/
def scoreNotFound : ErrResp := ⟨404, "Score not found or access denied"⟩

/-- The response `{ error: 'Conversion not found or access denied' }, 404`. -/
def conversionNotFound : ErrResp := ⟨404, "Conversion not found or access denied"⟩

/-! ## Upload (`POST /scores/upload`) -/

/-- The uploaded file's request-relevant data: name, declared content
type, size. -/
structure UploadReq where
  fileName : String
  fileType : String
  fileSize : Nat
deriving DecidableEq, Repr

/-- The list `['image/jpeg', 'image/png', 'image/jpg', 'application/pdf']` from the handler. -/
def allowedTypes : List String :=
  ["image/jpeg", "image/png", "image/jpg", "application/pdf"]

/-- Upload handler outcome: the success JSON (`scoreId`, optional signed
`url`, full metadata) or an error response. -/
inductive UploadResult
  | ok (scoreId : String) (url : Option String) (metadata : Score)
  | err (e : ErrResp)
deriving DecidableEq, Repr

/-- Recursion for `fileExtOf`: the characters after the last `'.'` seen
so far. -/
def fileExtAux : List Char → List Char → List Char
  | [], acc => acc.reverse
  | c :: cs, acc => if c = '.' then fileExtAux cs [] else fileExtAux cs (c :: acc)

/-- Models `file.name.split('.').pop()`: the part of the name after its last
`'.'`, or the whole name when it contains none (as for JS, where
`'abc'.split('.')` is `['abc']`). -/
def fileExtOf (name : String) : String := ⟨fileExtAux name.data []⟩

/-- The `scoreMetadata` document the upload handler builds on success:
`filePath` is `${user.id}/${timestamp}.${fileExt}`, `url` is the signed
URL `|| ''`. -/
def uploadMetadata (user : String) (req : UploadReq) (now : Nat)
    (signedUrl : Option String) : Score :=
  { id := mkScoreId user now
    userId := user
    fileName := req.fileName
    filePath := user ++ "/" ++ toString now ++ "." ++ fileExtOf req.fileName
    fileType := req.fileType
    fileSize := req.fileSize
    uploadedAt := now
    url := signedUrl.getD "" }

/-- The upload handler after authentication.  `now` models the handler's
clock reads, `uploadErr` the blob-store upload outcome (`some m` when the
storage upload failed with message `m`), and `signedUrl` the
`signedUrlData?.signedUrl` of the `createSignedUrl` call. -/
def upload (st : KV) (user : String) (req : UploadReq) (now : Nat)
    (uploadErr : Option String) (signedUrl : Option String) :
    UploadResult × KV :=
  if allowedTypes.contains req.fileType then
    match uploadErr with
    | some m => (.err ⟨500, "Failed to upload file: " ++ m⟩, st)
    | none =>
      let scoreId := mkScoreId user now
      let metadata := uploadMetadata user req now signedUrl
      let st1 := kv.set st scoreId (.score metadata)
      let existingScores := indexOr (kv.get st1 (userScoresKey user))
      let st2 := kv.set st1 (userScoresKey user)
        (.index (existingScores ++ [scoreId]))
      (.ok scoreId signedUrl metadata, st2)
  else
    (.err ⟨400, "Invalid file type. Please upload JPG, PNG, or PDF files only."⟩, st)

/-! ## Convert (`POST /scores/:scoreId/convert`) -/

/-- The convert request body `{ instruments, satbConfig, tempo }`; each
field may be absent. -/
structure ConvertReq where
  instruments : Option (List String)
  satbConfig : Option SATBConfig
  tempo : Option Int
deriving DecidableEq, Repr

/-- Models `tempo || 120`: absent (or the falsy number `0`) falls back to 120. -/
def orDefaultTempo : Option Int → Int
  | none => 120
  | some t => if t = 0 then 120 else t

/-- Convert handler outcome. -/
inductive ConvertResult
  | ok (conversionId : String) (status : ConvStatus) (message : String)
  | err (e : ErrResp)
deriving DecidableEq, Repr

/-- The convert handler after authentication.  Returns the response, the
store after the synchronous part, and — when a job was scheduled — the
`conversionData` closure captured by the `setTimeout` callback. -/
def convert (st : KV) (user scoreId : String) (req : ConvertReq) (now : Nat) :
    ConvertResult × KV × Option Conversion :=
  if ownedBy (kv.get st scoreId) user then
    let conversionId := mkConversionId user now
    let conversionData : Conversion :=
      { id := conversionId
        scoreId := scoreId
        userId := user
        instruments := req.instruments.getD []
        satbConfig := req.satbConfig.getD []
        tempo := orDefaultTempo req.tempo
        status := .processing
        createdAt := now }
    let st1 := kv.set st conversionId (.conv conversionData)
    (.ok conversionId .processing
      "Conversion started. Check status using the conversion ID.",
      st1, some conversionData)
  else
    (.err scoreNotFound, st, none)

/-! ## Completion (the `setTimeout` callback of the convert handler) -/

/-- The completion callback's success path: writes a completed record
built from the creation-time closure `cd` (the callback never re-reads or
checks the stored record), then appends `cd.id` to the user's conversion
index.  `audioUrl`/`midiUrl` model the `…?.signedUrl` of the two
`createSignedUrl` calls; `now` models `new Date().toISOString()`. -/
def completeSuccess (st : KV) (cd : Conversion)
    (audioUrl midiUrl : Option String) (now : Nat) : KV :=
  let audioPath := cd.userId ++ "/" ++ cd.id ++ ".mp3"
  let midiPath := cd.userId ++ "/" ++ cd.id ++ ".mid"
  let updatedConversion : Conversion :=
    { cd with
      status := .completed
      audioUrl := audioUrl
      midiUrl := midiUrl
      audioPath := some audioPath
      midiPath := some midiPath
      completedAt := some now }
  let st1 := kv.set st cd.id (.conv updatedConversion)
  let existingConversions := indexOr (kv.get st1 (userConversionsKey cd.userId))
  kv.set st1 (userConversionsKey cd.userId)
    (.index (existingConversions ++ [cd.id]))

/-- The completion callback's `catch` path: overwrites the record with a
failed copy of the creation-time closure data.  No `completedAt` is
written and no index append happens on this path. -/
def completeFailure (st : KV) (cd : Conversion) : KV :=
  kv.set st cd.id
    (.conv { cd with
             status := .failed
             error := some "Conversion processing failed" })

/-! ## Status read (`GET /conversions/:conversionId`) -/

/-- The status-read handler after authentication: returns the stored
record as-is, or the 404 error when it is absent or not owned. -/
def getConversion (st : KV) (user conversionId : String) :
    Except ErrResp KVValue :=
  match kv.get st conversionId with
  | some v => if v.userIdField == some user then .ok v else .error conversionNotFound
  | none => .error conversionNotFound

/-! ## Library listing (`GET /library`) -/

/-- One entry of the library response: a fetched score document with its
attached `conversions` array. -/
structure LibEntry where
  val : KVValue
  conversions : List KVValue
deriving DecidableEq, Repr

/-- JS property-key coercion used by `acc[conv.scoreId]` and
`conversionsByScore[score.id]`: `undefined` stringifies to
`"undefined"`. -/
def jsKey : Option String → String
  | some s => s
  | none => "undefined"

/-- Models `new Date(v.uploadedAt).getTime()` of a fetched document, for the
sort comparator.  (A document without `uploadedAt` would give `NaN` in
JS — unspecified order; well-formed states never hit it, modelled 0.) -/
def uploadedAtNum (v : KVValue) : Nat := v.uploadedAtField.getD 0

/-- The sort comparator `(a, b) => new Date(b.uploadedAt).getTime() -
new Date(a.uploadedAt).getTime()` as the "a before b" relation of a
stable sort: descending `uploadedAt`. -/
def libLe (a b : LibEntry) : Bool :=
  decide (uploadedAtNum b.val ≤ uploadedAtNum a.val)

/-- The library handler after authentication: read both per-user indexes,
multi-fetch the referenced documents, group conversions by `scoreId`,
attach each score's group, sort by `uploadedAt` descending. -/
def library (st : KV) (user : String) : List LibEntry :=
  let scoreIds := indexOr (kv.get st (userScoresKey user))
  let conversionIds := indexOr (kv.get st (userConversionsKey user))
  let scores := kv.mget st scoreIds
  let conversions := kv.mget st conversionIds
  let entries := scores.map fun s =>
    LibEntry.mk s
      (conversions.filter fun c => jsKey c.scoreIdField == jsKey s.idField)
  entries.mergeSort libLe

/-! ## Delete score (`DELETE /scores/:scoreId`) -/

/-- Delete handler outcome. -/
inductive DeleteResult
  | ok (message : String)
  | err (e : ErrResp)
deriving DecidableEq, Repr

/-- One iteration of the deletion loop: `kv.del(conversion.id)`.  (The
blob removals of the same loop do not touch the KV store and their
failures are ignored by the handler.)  Only conversion documents reach
this loop, so `idField` is always present there. -/
def delOne (s : KV) (v : KVValue) : KV :=
  match v.idField with
  | some i => kv.del s i
  | none => s

/-- The conversion documents the delete handler targets: the fetched
entries of the owner's conversion index whose `scoreId` equals the
deleted score's id. -/
def delScoreConversions (st : KV) (user scoreId : String) : List KVValue :=
  (kv.mget st (indexOr (kv.get st (userConversionsKey user)))).filter
    fun c => c.scoreIdField == some scoreId

/-- The success path of the delete handler, its store writes in source
order: delete each targeted conversion by its `id`; rewrite the
conversion index without the targeted ids; delete the score record;
rewrite the score index without the score id. -/
def deleteScoreOwned (st : KV) (user scoreId : String) : KV :=
  let conversionIds := indexOr (kv.get st (userConversionsKey user))
  let scoreConversions := delScoreConversions st user scoreId
  let st1 := scoreConversions.foldl delOne st
  let updatedConversions := conversionIds.filter fun i =>
    ! scoreConversions.any fun c => c.idField == some i
  let st2 := kv.set st1 (userConversionsKey user) (.index updatedConversions)
  let st3 := kv.del st2 scoreId
  let scoreIds := indexOr (kv.get st3 (userScoresKey user))
  kv.set st3 (userScoresKey user)
    (.index (scoreIds.filter fun i => i != scoreId))

/-- The delete handler after authentication.  Blob-store removals are
omitted: they do not touch the KV store and the handler ignores their
outcome. -/
def deleteScore (st : KV) (user scoreId : String) : DeleteResult × KV :=
  if ownedBy (kv.get st scoreId) user then
    (.ok "Score and all conversions deleted successfully",
      deleteScoreOwned st user scoreId)
  else
    (.err scoreNotFound, st)

/-! ## Well-formedness of reachable stores

The handlers only ever write arrays at index keys, and store every Score
and Conversion under its own `id`.  The claims that quantify over index
contents assume this shape of the store. -/

/-- The given key holds an id array, or nothing. -/
def indexKeyWF (st : KV) (k : String) : Bool :=
  match st k with
  | some (.index _) => true
  | some _ => false
  | none => true

/-- Every resolving entry of the user's conversion index is a Conversion
document stored under its own id. -/
def convIndexWF (st : KV) (u : String) : Bool :=
  (indexOr (kv.get st (userConversionsKey u))).all fun cid =>
    match st cid with
    | some (.conv c) => c.id == cid
    | some _ => false
    | none => true

/-- Every resolving entry of the user's score index is a Score document. -/
def scoreIndexWF (st : KV) (u : String) : Bool :=
  (indexOr (kv.get st (userScoresKey u))).all fun sid =>
    match st sid with
    | some (.score _) => true
    | some _ => false
    | none => true

/-! ## Concrete fixtures for witnesses and counterexamples -/

/-- A concrete uploaded score owned by user `"u"`. -/
def exScore : Score :=
  { id := "score_u_1"
    userId := "u"
    fileName := "a.png"
    filePath := "u/1.png"
    fileType := "image/png"
    fileSize := 7
    uploadedAt := 1
    url := "" }

/-- A concrete store: `exScore` plus its owner's score index. -/
def exSt : KV :=
  kv.set (kv.set kvEmpty "score_u_1" (.score exScore))
    (userScoresKey "u") (.index ["score_u_1"])

/-- A convert request with every field absent. -/
def exReq : ConvertReq := ⟨none, none, none⟩

/-- The conversion document the convert handler stores for `exReq` on
`exScore` at time 5. -/
def exCd : Conversion :=
  { id := "conversion_u_5"
    scoreId := "score_u_1"
    userId := "u"
    instruments := []
    satbConfig := []
    tempo := 120
    status := .processing
    createdAt := 5 }

/-- The store after that convert call: `exCd` is stored and processing. -/
def exStProc : KV := (convert exSt "u" "score_u_1" exReq 5).2.1

/-- The record written by the successful completion of `exCd` at time 9. -/
def exDoneRec : Conversion :=
  { exCd with
    status := .completed
    audioUrl := some "au"
    midiUrl := some "mu"
    audioPath := some "u/conversion_u_5.mp3"
    midiPath := some "u/conversion_u_5.mid"
    completedAt := some 9 }

/-- The record written by the failure path of the completion callback. -/
def exFailRec : Conversion :=
  { exCd with
    status := .failed
    error := some "Conversion processing failed" }

/-- The store after `exCd` completed successfully at time 9. -/
def exStDone : KV := completeSuccess exStProc exCd (some "au") (some "mu") 9

/-- A library fixture: after `exCd` completed, a second score is uploaded
at time 12, so user `"u"` has two scores and one indexed conversion. -/
def exStLib : KV :=
  (upload exStDone "u" ⟨"c.png", "image/png", 4⟩ 12 none (some "u2")).2

/-- A score owned by a different user `"w"`. -/
def exScoreW : Score :=
  { id := "score_w_1"
    userId := "w"
    fileName := "a.png"
    filePath := "w/1.png"
    fileType := "image/png"
    fileSize := 7
    uploadedAt := 1
    url := "" }

/-- A store holding only `exScoreW`. -/
def exStOther : KV := kv.set kvEmpty "score_w_1" (.score exScoreW)

/-! ## KV store lemmas -/

theorem kv_set_self (st : KV) (k : String) (v : KVValue) :
    kv.set st k v k = some v := by
  simp [kv.set]

theorem kv_set_ne (st : KV) (k q : String) (v : KVValue) (h : q ≠ k) :
    kv.set st k v q = st q := by
  simp [kv.set, h]

theorem kv_del_self (st : KV) (k : String) : kv.del st k k = none := by
  simp [kv.del]

theorem kv_del_ne (st : KV) (k q : String) (h : q ≠ k) :
    kv.del st k q = st q := by
  simp [kv.del, h]

/-! ## Key-namespace disjointness

Every key the server writes carries one of four literal leading tags
(`score_`, `conversion_`, `user_scores_`, `user_conversions_`), so keys
of different kinds can never alias. -/

theorem ne_of_data_ne {s t : String} (h : s.data ≠ t.data) : s ≠ t :=
  fun he => h (congrArg String.data he)

theorem mkScoreId_ne_userScoresKey (u : String) (t : Nat) (u' : String) :
    mkScoreId u t ≠ userScoresKey u' := by
  apply ne_of_data_ne
  intro h
  rw [mkScoreId, userScoresKey] at h
  simp only [String.data_append] at h
  simp at h

theorem mkScoreId_ne_userConversionsKey (u : String) (t : Nat) (u' : String) :
    mkScoreId u t ≠ userConversionsKey u' := by
  apply ne_of_data_ne
  intro h
  rw [mkScoreId, userConversionsKey] at h
  simp only [String.data_append] at h
  simp at h

theorem mkConversionId_ne_userScoresKey (u : String) (t : Nat) (u' : String) :
    mkConversionId u t ≠ userScoresKey u' := by
  apply ne_of_data_ne
  intro h
  rw [mkConversionId, userScoresKey] at h
  simp only [String.data_append] at h
  simp at h

theorem mkConversionId_ne_userConversionsKey (u : String) (t : Nat) (u' : String) :
    mkConversionId u t ≠ userConversionsKey u' := by
  apply ne_of_data_ne
  intro h
  rw [mkConversionId, userConversionsKey] at h
  simp only [String.data_append] at h
  simp at h

theorem mkConversionId_ne_mkScoreId (u : String) (t : Nat) (u' : String) (t' : Nat) :
    mkConversionId u t ≠ mkScoreId u' t' := by
  apply ne_of_data_ne
  intro h
  rw [mkConversionId, mkScoreId] at h
  simp only [String.data_append] at h
  simp at h

theorem userScoresKey_ne_userConversionsKey (u u' : String) :
    userScoresKey u ≠ userConversionsKey u' := by
  apply ne_of_data_ne
  intro h
  rw [userScoresKey, userConversionsKey] at h
  simp only [String.data_append] at h
  simp at h

/-! ## Injectivity of the decimal rendering of timestamps -/

theorem toDigitsCore_succ (b f n : Nat) (ds : List Char) :
    Nat.toDigitsCore b (f + 1) n ds =
      if n / b = 0 then (n % b).digitChar :: ds
      else Nat.toDigitsCore b f (n / b) ((n % b).digitChar :: ds) := rfl

theorem toDigitsCore_eq_digits :
    ∀ (f n : Nat) (acc : List Char), 0 < n → n ≤ f →
      Nat.toDigitsCore 10 f n acc =
        ((Nat.digits 10 n).map Nat.digitChar).reverse ++ acc := by
  intro f
  induction f with
  | zero => intro n acc h1 h2; omega
  | succ f ih =>
    intro n acc h1 h2
    rw [toDigitsCore_succ]
    rw [Nat.digits_def' (by norm_num : (1 : Nat) < 10) h1]
    by_cases h : n / 10 = 0
    · rw [if_pos h, h]
      simp
    · rw [if_neg h]
      have h1' : 0 < n / 10 := Nat.pos_of_ne_zero h
      have h2' : n / 10 ≤ f := by
        have := Nat.div_lt_self h1 (by norm_num : (1 : Nat) < 10)
        omega
      rw [ih (n / 10) _ h1' h2']
      simp

theorem digitChar_inj_lt10 :
    ∀ a < 10, ∀ b < 10, Nat.digitChar a = Nat.digitChar b → a = b := by
  decide

theorem map_digitChar_inj :
    ∀ {l1 l2 : List Nat}, (∀ d ∈ l1, d < 10) → (∀ d ∈ l2, d < 10) →
      l1.map Nat.digitChar = l2.map Nat.digitChar → l1 = l2 := by
  intro l1
  induction l1 with
  | nil => intro l2 _ _ h; cases l2 <;> simp_all
  | cons a l ih =>
    intro l2 h1 h2 h
    cases l2 with
    | nil => simp_all
    | cons b l2 =>
      simp only [List.map_cons, List.cons.injEq] at h
      obtain ⟨hab, hl⟩ := h
      have hae := digitChar_inj_lt10 a (h1 a (by simp)) b (h2 b (by simp)) hab
      subst hae
      have := ih (fun d hd => h1 d (by simp [hd])) (fun d hd => h2 d (by simp [hd])) hl
      simp [this]

theorem natRepr_inj {m n : Nat} (h : Nat.repr m = Nat.repr n) : m = n := by
  have hd : Nat.toDigits 10 m = Nat.toDigits 10 n := by
    have h2 := congrArg String.data h
    simpa [Nat.repr, List.asString] using h2
  have hz : ∀ k : Nat, 0 < k →
      Nat.toDigits 10 k = ((Nat.digits 10 k).map Nat.digitChar).reverse := by
    intro k hk
    rw [Nat.toDigits, toDigitsCore_eq_digits (k + 1) k [] hk (by omega)]
    simp
  have hpos0 : ∀ k : Nat, 0 < k → Nat.toDigits 10 k = ['0'] → False := by
    intro k hk he
    rw [hz k hk] at he
    have hrev : (Nat.digits 10 k).map Nat.digitChar = ['0'] := by
      have h3 := congrArg List.reverse he
      simpa using h3
    have hmap0 : List.map Nat.digitChar [0] = ['0'] := rfl
    have hdig : Nat.digits 10 k = [0] :=
      map_digitChar_inj (fun d hdm => Nat.digits_lt_base (by norm_num) hdm)
        (fun d hd0 => by simp at hd0; omega) (hrev.trans hmap0.symm)
    have hof := Nat.ofDigits_digits 10 k
    rw [hdig] at hof
    simp [Nat.ofDigits] at hof
    omega
  rcases Nat.eq_zero_or_pos m with hm | hm
  · rcases Nat.eq_zero_or_pos n with hn | hn
    · omega
    · subst hm
      have h0 : Nat.toDigits 10 n = ['0'] := by rw [← hd]; decide
      exact (hpos0 n hn h0).elim
  · rcases Nat.eq_zero_or_pos n with hn | hn
    · subst hn
      have h0 : Nat.toDigits 10 m = ['0'] := by rw [hd]; decide
      exact (hpos0 m hm h0).elim
    · rw [hz m hm, hz n hn] at hd
      have hrev : (Nat.digits 10 m).map Nat.digitChar =
          (Nat.digits 10 n).map Nat.digitChar := by
        have h3 := congrArg List.reverse hd
        simpa using h3
      have hdig := map_digitChar_inj
        (fun d hdm => Nat.digits_lt_base (by norm_num) hdm)
        (fun d hdn => Nat.digits_lt_base (by norm_num) hdn) hrev
      have hm2 := Nat.ofDigits_digits 10 m
      have hn2 := Nat.ofDigits_digits 10 n
      rw [hdig, hn2] at hm2
      omega


theorem toString_nat_inj {m n : Nat} (h : toString m = toString n) : m = n :=
  natRepr_inj h

theorem string_append_left_cancel {s a b : String} (h : s ++ a = s ++ b) :
    a = b := by
  have h2 := congrArg String.data h
  rw [String.data_append, String.data_append] at h2
  have h3 := List.append_cancel_left h2
  cases a
  cases b
  simp_all

/-! ## The deletion loop -/

theorem delOne_apply (st : KV) (v : KVValue) (k : String) :
    delOne st v k = if v.idField == some k then none else st k := by
  unfold delOne
  cases hvf : v.idField with
  | none => simp
  | some i =>
    by_cases hik : i = k
    · subst hik
      simp [kv.del]
    · simp [kv.del, hik, Ne.symm hik]

theorem foldl_delOne_apply (vs : List KVValue) (st : KV) (k : String) :
    (vs.foldl delOne st) k =
      if vs.any (fun v => v.idField == some k) then none else st k := by
  induction vs generalizing st with
  | nil => simp
  | cons v vs ih =>
    rw [List.foldl_cons, List.any_cons, ih, delOne_apply]
    by_cases hv : (v.idField == some k) = true <;>
      by_cases ha : (vs.any fun v => v.idField == some k) = true <;>
        simp [hv, ha]

/-! ## Claim theorems -/

/-- What a successful upload does: the response carries the scoreId, the
signed URL and the metadata; the metadata is stored under the scoreId;
the user's score index gains exactly that scoreId at its end; no other
key changes. -/
theorem upload_success_obs (st : KV) (user : String) (req : UploadReq)
    (now : Nat) (su : Option String)
    (hty : allowedTypes.contains req.fileType = true) :
    (upload st user req now none su).1 =
        .ok (mkScoreId user now) su (uploadMetadata user req now su) ∧
    (upload st user req now none su).2 (mkScoreId user now) =
        some (.score (uploadMetadata user req now su)) ∧
    indexOr ((upload st user req now none su).2 (userScoresKey user)) =
        indexOr (st (userScoresKey user)) ++ [mkScoreId user now] ∧
    (∀ k, k ≠ mkScoreId user now → k ≠ userScoresKey user →
      (upload st user req now none su).2 k = st k) := by
  have hne : userScoresKey user ≠ mkScoreId user now :=
    Ne.symm (mkScoreId_ne_userScoresKey user now user)
  unfold upload
  rw [if_pos hty]
  refine ⟨rfl, ?_, ?_, ?_⟩
  · simp [kv.set, hne, Ne.symm hne]
  · simp [kv.set, kv.get, hne, indexOr]
  · intro k hk1 hk2
    simp [kv.set, hk1, hk2]

/-- Claim C9 (confirmed): the record written by a successful Completion is
the creation-time record `cd` (the `conversionData` closure, i.e. exactly
the values stored at creation) with only `status`, `audioUrl`, `midiUrl`,
`audioPath`, `midiPath` and `completedAt` changed — `id`, `scoreId`,
`userId`, `instruments`, `satbConfig`, `tempo` and `createdAt` are
carried over unchanged. -/
theorem completion_success_frame (st : KV) (cd : Conversion)
    (au mu : Option String) (now : Nat)
    (h : cd.id ≠ userConversionsKey cd.userId) :
    (completeSuccess st cd au mu now) cd.id =
      some (.conv { cd with
        status := .completed
        audioUrl := au
        midiUrl := mu
        audioPath := some (cd.userId ++ "/" ++ cd.id ++ ".mp3")
        midiPath := some (cd.userId ++ "/" ++ cd.id ++ ".mid")
        completedAt := some now }) := by
  unfold completeSuccess
  simp [kv.set, h]

/-- Witness for `completion_success_frame` at the concrete fixture. -/
theorem completion_success_frame_witness :
    exCd.id ≠ userConversionsKey exCd.userId ∧
    (completeSuccess exStProc exCd (some "au") (some "mu") 9) exCd.id =
      some (.conv { exCd with
        status := .completed
        audioUrl := some "au"
        midiUrl := some "mu"
        audioPath := some (exCd.userId ++ "/" ++ exCd.id ++ ".mp3")
        midiPath := some (exCd.userId ++ "/" ++ exCd.id ++ ".mid")
        completedAt := some 9 }) :=
  ⟨by decide,
    completion_success_frame exStProc exCd (some "au") (some "mu") 9 (by decide)⟩

/-- Claim C4 (confirmed): for Convert, Status Read and Delete Score, a
request naming a missing entity (store `stm`) and a request naming an
entity owned by a different user (store `sto`) produce the same
observable error outcome — the same 404 category with the same message —
so the caller cannot distinguish the two cases. -/
theorem notFound_forbidden_conflated (stm sto : KV) (user eid : String)
    (req : ConvertReq) (now : Nat) (v : KVValue)
    (hmiss : kv.get stm eid = none)
    (hother : kv.get sto eid = some v)
    (howner : v.userIdField ≠ some user) :
    convert stm user eid req now = (.err scoreNotFound, stm, none) ∧
    convert sto user eid req now = (.err scoreNotFound, sto, none) ∧
    getConversion stm user eid = .error conversionNotFound ∧
    getConversion sto user eid = .error conversionNotFound ∧
    deleteScore stm user eid = (.err scoreNotFound, stm) ∧
    deleteScore sto user eid = (.err scoreNotFound, sto) := by
  simp only [kv.get] at hmiss hother
  refine ⟨?_, ?_, ?_, ?_, ?_, ?_⟩ <;>
    simp [convert, getConversion, deleteScore, kv.get, ownedBy,
      hmiss, hother, howner]

/-- Witness for `notFound_forbidden_conflated`: the id `"score_w_1"` is
absent from the empty store and owned by `"w"` (not the caller `"u"`) in
`exStOther`. -/
theorem notFound_forbidden_conflated_witness :
    (kv.get kvEmpty "score_w_1" = none ∧
     kv.get exStOther "score_w_1" = some (.score exScoreW) ∧
     (KVValue.score exScoreW).userIdField ≠ some "u") ∧
    (convert kvEmpty "u" "score_w_1" exReq 5 = (.err scoreNotFound, kvEmpty, none) ∧
     convert exStOther "u" "score_w_1" exReq 5 = (.err scoreNotFound, exStOther, none) ∧
     getConversion kvEmpty "u" "score_w_1" = .error conversionNotFound ∧
     getConversion exStOther "u" "score_w_1" = .error conversionNotFound ∧
     deleteScore kvEmpty "u" "score_w_1" = (.err scoreNotFound, kvEmpty) ∧
     deleteScore exStOther "u" "score_w_1" = (.err scoreNotFound, exStOther)) :=
  ⟨⟨by decide, by decide, by decide⟩,
    notFound_forbidden_conflated kvEmpty exStOther "u" "score_w_1" exReq 5
      (.score exScoreW) (by decide) (by decide) (by decide)⟩

/-- Claim C10 (confirmed): if signed-URL issuance fails (`signedUrl = none`)
after a successful blob upload (`uploadErr = none`), the upload still
succeeds: the Score record is persisted and indexed with `url = ""`, and
the response carries the scoreId with no error. -/
theorem upload_signedUrl_failure_still_succeeds (st : KV) (user : String)
    (req : UploadReq) (now : Nat)
    (hty : allowedTypes.contains req.fileType = true) :
    (upload st user req now none none).1 =
        .ok (mkScoreId user now) none (uploadMetadata user req now none) ∧
    (uploadMetadata user req now none).url = "" ∧
    (upload st user req now none none).2 (mkScoreId user now) =
        some (.score (uploadMetadata user req now none)) ∧
    indexOr ((upload st user req now none none).2 (userScoresKey user)) =
        indexOr (st (userScoresKey user)) ++ [mkScoreId user now] := by
  obtain ⟨h1, h2, h3, _⟩ := upload_success_obs st user req now none hty
  exact ⟨h1, rfl, h2, h3⟩

/-- Witness for `upload_signedUrl_failure_still_succeeds` at a concrete
PNG upload. -/
theorem upload_signedUrl_failure_still_succeeds_witness :
    allowedTypes.contains "image/png" = true ∧
    ((upload exSt "u" ⟨"a.png", "image/png", 7⟩ 7 none none).1 =
        .ok (mkScoreId "u" 7) none (uploadMetadata "u" ⟨"a.png", "image/png", 7⟩ 7 none) ∧
     (uploadMetadata "u" ⟨"a.png", "image/png", 7⟩ 7 none).url = "" ∧
     (upload exSt "u" ⟨"a.png", "image/png", 7⟩ 7 none none).2 (mkScoreId "u" 7) =
        some (.score (uploadMetadata "u" ⟨"a.png", "image/png", 7⟩ 7 none)) ∧
     indexOr ((upload exSt "u" ⟨"a.png", "image/png", 7⟩ 7 none none).2 (userScoresKey "u")) =
        indexOr (exSt (userScoresKey "u")) ++ [mkScoreId "u" 7]) :=
  ⟨by decide,
    upload_signedUrl_failure_still_succeeds exSt "u" ⟨"a.png", "image/png", 7⟩ 7 (by decide)⟩

/-- Claim C2 (counterexample): the completion step does overwrite a terminal
record.  In `exStDone` the conversion `"conversion_u_5"` is already
`completed`, yet applying the completion callback's failure path rewrites
it to a `failed` record — the claim's "never overwrites a terminal
record / writes nothing" is false, and the status leaves a terminal
state. -/
theorem completion_overwrites_terminal :
    exStDone "conversion_u_5" = some (.conv exDoneRec) ∧
    exDoneRec.status = .completed ∧
    (completeFailure exStDone exCd) "conversion_u_5" = some (.conv exFailRec) ∧
    exFailRec.status = .failed := by
  decide

/-- Claim C2 (amended): the completion step writes its terminal record
unconditionally, built from the creation-time closure data, without
loading or checking the stored record: whatever the store holds at
`cd.id` (a processing record, a terminal record, or nothing), after the
success path the stored value is a `completed` record and after the
failure path a `failed` record.  A record observed in `processing` state
therefore only ever moves to `completed` or `failed`; but a missing or
terminal record is overwritten rather than left untouched. -/
theorem completion_writes_unconditionally (st : KV) (cd : Conversion)
    (au mu : Option String) (now : Nat)
    (h : cd.id ≠ userConversionsKey cd.userId) :
    (∃ c : Conversion,
      (completeSuccess st cd au mu now) cd.id = some (.conv c) ∧
      c.status = .completed) ∧
    (∃ c : Conversion,
      (completeFailure st cd) cd.id = some (.conv c) ∧
      c.status = .failed) := by
  constructor
  · refine ⟨{ cd with
      status := .completed
      audioUrl := au
      midiUrl := mu
      audioPath := some (cd.userId ++ "/" ++ cd.id ++ ".mp3")
      midiPath := some (cd.userId ++ "/" ++ cd.id ++ ".mid")
      completedAt := some now }, ?_, rfl⟩
    unfold completeSuccess
    simp [kv.set, h]
  · refine ⟨{ cd with
      status := .failed
      error := some "Conversion processing failed" }, ?_, rfl⟩
    unfold completeFailure
    simp [kv.set]

/-- Witness for `completion_writes_unconditionally` on a store where
nothing is stored at the conversion id at all. -/
theorem completion_writes_unconditionally_witness :
    exCd.id ≠ userConversionsKey exCd.userId ∧
    ((∃ c : Conversion,
       (completeSuccess kvEmpty exCd (some "au") (some "mu") 9) exCd.id =
         some (.conv c) ∧ c.status = .completed) ∧
     (∃ c : Conversion,
       (completeFailure kvEmpty exCd) exCd.id = some (.conv c) ∧
       c.status = .failed)) :=
  ⟨by decide,
    completion_writes_unconditionally kvEmpty exCd (some "au") (some "mu") 9 (by decide)⟩

/-- Claim C3 (counterexample): two Convert calls by the same user against
the same Score in the same millisecond both succeed but return the SAME
conversion id `"conversion_u_5"` — the ids are not unique and not
distinct. -/
theorem convert_same_millisecond_id_collision :
    (convert exSt "u" "score_u_1" exReq 5).1 =
      .ok "conversion_u_5" .processing
        "Conversion started. Check status using the conversion ID." ∧
    (convert (convert exSt "u" "score_u_1" exReq 5).2.1 "u" "score_u_1" exReq 5).1 =
      .ok "conversion_u_5" .processing
        "Conversion started. Check status using the conversion ID." := by
  decide

/-- Claim C3 (amended): entity ids embed the owning user and the creation
millisecond; for a fixed user, ids of the same kind are distinct whenever
the creation milliseconds differ, and a conversion id never collides
with a score id; but two Convert calls by the same user in the same
millisecond produce the same id (see the counterexample). -/
theorem entity_ids_unique_across_instants (u w : String) (t t' : Nat) :
    (t ≠ t' → mkConversionId u t ≠ mkConversionId u t') ∧
    (t ≠ t' → mkScoreId u t ≠ mkScoreId u t') ∧
    mkConversionId u t ≠ mkScoreId w t' := by
  refine ⟨?_, ?_, mkConversionId_ne_mkScoreId u t w t'⟩
  · intro hne he
    exact hne (toString_nat_inj (string_append_left_cancel he))
  · intro hne he
    exact hne (toString_nat_inj (string_append_left_cancel he))

/-- Witness for `entity_ids_unique_across_instants` at distinct concrete
instants. -/
theorem entity_ids_unique_across_instants_witness :
    (5 : Nat) ≠ 6 ∧
    mkConversionId "u" 5 ≠ mkConversionId "u" 6 ∧
    mkScoreId "u" 5 ≠ mkScoreId "u" 6 ∧
    mkConversionId "u" 5 ≠ mkScoreId "w" 6 :=
  ⟨by decide,
    (entity_ids_unique_across_instants "u" "w" 5 6).1 (by decide),
    (entity_ids_unique_across_instants "u" "w" 5 6).2.1 (by decide),
    (entity_ids_unique_across_instants "u" "w" 5 6).2.2⟩

/-- Claim C5 (counterexample): a file whose declared content type
`image/jpg` lies outside the spec's set
`{image/jpeg, image/png, application/pdf}` is NOT rejected: the upload
succeeds and creates a Score (the server's list also allows
`image/jpg`). -/
theorem upload_accepts_image_jpg :
    ("image/jpg" ∉ (["image/jpeg", "image/png", "application/pdf"] : List String)) ∧
    (upload exSt "u" ⟨"b.jpg", "image/jpg", 3⟩ 7 none (some "cu")).1 =
      .ok "score_u_7" (some "cu")
        (uploadMetadata "u" ⟨"b.jpg", "image/jpg", 3⟩ 7 (some "cu")) := by
  decide

/-- Claim C5 (amended): the server's allowed set is `{image/jpeg, image/png,
image/jpg, application/pdf}` — `image/jpg` included.  Upload rejects
every declared type outside that set with the 400 validation error and
leaves the store untouched; a blob-store failure also leaves the store
untouched (no metadata, no index mutation); and on success the metadata
is persisted under the scoreId and the index appended only then. -/
theorem upload_validation_and_visibility (st : KV) (user : String)
    (req : UploadReq) (now : Nat) (m : String) (ue su : Option String) :
    (allowedTypes.contains req.fileType = false →
      upload st user req now ue su =
        (.err ⟨400, "Invalid file type. Please upload JPG, PNG, or PDF files only."⟩, st)) ∧
    (allowedTypes.contains req.fileType = true →
      upload st user req now (some m) su =
        (.err ⟨500, "Failed to upload file: " ++ m⟩, st)) ∧
    (allowedTypes.contains req.fileType = true →
      (upload st user req now none su).1 =
          .ok (mkScoreId user now) su (uploadMetadata user req now su) ∧
      (upload st user req now none su).2 (mkScoreId user now) =
          some (.score (uploadMetadata user req now su)) ∧
      indexOr ((upload st user req now none su).2 (userScoresKey user)) =
          indexOr (st (userScoresKey user)) ++ [mkScoreId user now]) := by
  refine ⟨?_, ?_, ?_⟩
  · intro h
    have h2 : req.fileType ∉ allowedTypes := by simpa using h
    simp [upload, h2]
  · intro h
    have h2 : req.fileType ∈ allowedTypes := by simpa using h
    simp [upload, h2]
  · intro h
    obtain ⟨h1, h2, h3, _⟩ := upload_success_obs st user req now su h
    exact ⟨h1, h2, h3⟩

/-- Witness for `upload_validation_and_visibility`: a `.txt` upload is
rejected with the validation error and a blob-store failure yields the
500 error, in both cases leaving the store unchanged. -/
theorem upload_validation_and_visibility_witness :
    (allowedTypes.contains "text/plain" = false ∧
      upload exSt "u" ⟨"n.txt", "text/plain", 3⟩ 7 none none =
        (.err ⟨400, "Invalid file type. Please upload JPG, PNG, or PDF files only."⟩, exSt)) ∧
    (allowedTypes.contains "image/png" = true ∧
      upload exSt "u" ⟨"a.png", "image/png", 3⟩ 7 (some "boom") none =
        (.err ⟨500, "Failed to upload file: " ++ "boom"⟩, exSt)) :=
  ⟨⟨by decide,
    (upload_validation_and_visibility exSt "u" ⟨"n.txt", "text/plain", 3⟩ 7
      "boom" none none).1 (by decide)⟩,
   ⟨by decide,
    (upload_validation_and_visibility exSt "u" ⟨"a.png", "image/png", 3⟩ 7
      "boom" (some "boom") none).2.1 (by decide)⟩⟩

/-- Claim C6 (counterexample): recording a failure outcome writes the
failed record WITHOUT `completedAt` and WITHOUT appending the conversion
id to the owner's conversion index (the append sits on the success path
only): after the failure path runs on the processing fixture, the stored
record has `completedAt = none` and the index key is still absent. -/
theorem completion_failure_no_completedAt_no_index :
    (completeFailure exStProc exCd) "conversion_u_5" = some (.conv exFailRec) ∧
    exFailRec.status = .failed ∧
    exFailRec.error = some "Conversion processing failed" ∧
    exFailRec.completedAt = none ∧
    (completeFailure exStProc exCd) (userConversionsKey "u") = none := by
  decide

/-- Claim C6 (amended): on failure the stored record carries
`status = failed` and the failure message in `error`, but `completedAt`
is left exactly as at creation (absent) and no conversion index changes;
only successful completion sets `completedAt = now` and appends the id
to the owner's index — and creation (Convert) never appends, so a
processing Conversion is not discoverable via that index. -/
theorem completion_index_append_on_success_only (st : KV) (cd : Conversion)
    (au mu : Option String) (now : Nat) (u' : String)
    (h1 : cd.id ≠ userConversionsKey u')
    (h2 : cd.id ≠ userConversionsKey cd.userId) :
    (completeFailure st cd) cd.id =
      some (.conv { cd with
        status := .failed
        error := some "Conversion processing failed" }) ∧
    (completeFailure st cd) (userConversionsKey u') = st (userConversionsKey u') ∧
    indexOr ((completeSuccess st cd au mu now) (userConversionsKey cd.userId)) =
      indexOr (st (userConversionsKey cd.userId)) ++ [cd.id] ∧
    (∃ c : Conversion,
      (completeSuccess st cd au mu now) cd.id = some (.conv c) ∧
      c.completedAt = some now) ∧
    (∀ (st2 : KV) (u sid : String) (req : ConvertReq) (t : Nat),
      (convert st2 u sid req t).2.1 (userConversionsKey u) =
        st2 (userConversionsKey u)) := by
  refine ⟨?_, ?_, ?_, ?_, ?_⟩
  · unfold completeFailure
    simp [kv.set]
  · unfold completeFailure
    simp [kv.set, Ne.symm h1]
  · unfold completeSuccess
    simp [kv.set, kv.get, Ne.symm h2, indexOr]
  · refine ⟨{ cd with
      status := .completed
      audioUrl := au
      midiUrl := mu
      audioPath := some (cd.userId ++ "/" ++ cd.id ++ ".mp3")
      midiPath := some (cd.userId ++ "/" ++ cd.id ++ ".mid")
      completedAt := some now }, ?_, rfl⟩
    unfold completeSuccess
    simp [kv.set, h2]
  · intro st2 u sid req t
    unfold convert
    by_cases hb : ownedBy (kv.get st2 sid) u = true
    · simp [hb, kv.set, Ne.symm (mkConversionId_ne_userConversionsKey u t u)]
    · simp [hb]

/-- Witness for `completion_index_append_on_success_only` at the
processing fixture. -/
theorem completion_index_append_on_success_only_witness :
    (exCd.id ≠ userConversionsKey "w" ∧
     exCd.id ≠ userConversionsKey exCd.userId) ∧
    ((completeFailure exStProc exCd) exCd.id =
       some (.conv { exCd with
         status := .failed
         error := some "Conversion processing failed" }) ∧
     (completeFailure exStProc exCd) (userConversionsKey "w") =
       exStProc (userConversionsKey "w") ∧
     indexOr ((completeSuccess exStProc exCd (some "au") (some "mu") 9)
         (userConversionsKey exCd.userId)) =
       indexOr (exStProc (userConversionsKey exCd.userId)) ++ [exCd.id] ∧
     (∃ c : Conversion,
       (completeSuccess exStProc exCd (some "au") (some "mu") 9) exCd.id =
         some (.conv c) ∧ c.completedAt = some 9) ∧
     (∀ (st2 : KV) (u sid : String) (req : ConvertReq) (t : Nat),
       (convert st2 u sid req t).2.1 (userConversionsKey u) =
         st2 (userConversionsKey u))) :=
  ⟨⟨by decide, by decide⟩,
    completion_index_append_on_success_only exStProc exCd (some "au") (some "mu")
      9 "w" (by decide) (by decide)⟩

/-- Claim C8 (counterexample): Convert performs no range validation on
`tempo`: a request with `tempo = 300` persists a processing Conversion
whose stored tempo is 300, outside 40–240. -/
theorem convert_stores_out_of_range_tempo :
    (convert exSt "u" "score_u_1" ⟨none, none, some 300⟩ 5).2.1 "conversion_u_5" =
      some (.conv { exCd with tempo := 300 }) ∧
    ¬ (40 ≤ (300 : Int) ∧ (300 : Int) ≤ 240) := by
  decide

/-- Claim C8 (amended): every Convert call on an owned Score persists a
Conversion with `status = processing` (before returning the same id to
the caller), with defaults: absent `instruments` becomes `[]`, absent
`satbConfig` becomes `{}` and absent `tempo` becomes 120; but the stored
tempo is simply the request's value whenever that value is a nonzero
integer — no 40–240 range check exists. -/
theorem convert_persists_processing_defaults (st : KV) (user scoreId : String)
    (req : ConvertReq) (now : Nat)
    (hown : ownedBy (kv.get st scoreId) user = true) :
    ∃ cd : Conversion,
      (convert st user scoreId req now).1 =
        .ok (mkConversionId user now) .processing
          "Conversion started. Check status using the conversion ID." ∧
      (convert st user scoreId req now).2.1 (mkConversionId user now) =
        some (.conv cd) ∧
      cd.status = .processing ∧
      cd.scoreId = scoreId ∧ cd.userId = user ∧ cd.createdAt = now ∧
      (req.instruments = none → cd.instruments = []) ∧
      (req.satbConfig = none → cd.satbConfig = []) ∧
      (req.tempo = none → cd.tempo = 120) ∧
      (∀ t : Int, req.tempo = some t → t ≠ 0 → cd.tempo = t) := by
  refine ⟨{ id := mkConversionId user now
            scoreId := scoreId
            userId := user
            instruments := req.instruments.getD []
            satbConfig := req.satbConfig.getD []
            tempo := orDefaultTempo req.tempo
            status := .processing
            createdAt := now }, ?_, ?_, rfl, rfl, rfl, rfl, ?_, ?_, ?_, ?_⟩
  · simp [convert, hown]
  · simp [convert, hown, kv.set]
  · intro h
    simp [h]
  · intro h
    simp [h]
  · intro h
    simp [h, orDefaultTempo]
  · intro t ht htz
    simp [ht, orDefaultTempo, htz]

/-- Witness for `convert_persists_processing_defaults` at the concrete
fixture with an empty request body. -/
theorem convert_persists_processing_defaults_witness :
    ownedBy (kv.get exSt "score_u_1") "u" = true ∧
    (∃ cd : Conversion,
      (convert exSt "u" "score_u_1" exReq 5).1 =
        .ok (mkConversionId "u" 5) .processing
          "Conversion started. Check status using the conversion ID." ∧
      (convert exSt "u" "score_u_1" exReq 5).2.1 (mkConversionId "u" 5) =
        some (.conv cd) ∧
      cd.status = .processing ∧
      cd.scoreId = "score_u_1" ∧ cd.userId = "u" ∧ cd.createdAt = 5 ∧
      (exReq.instruments = none → cd.instruments = []) ∧
      (exReq.satbConfig = none → cd.satbConfig = []) ∧
      (exReq.tempo = none → cd.tempo = 120) ∧
      (∀ t : Int, exReq.tempo = some t → t ≠ 0 → cd.tempo = t)) :=
  ⟨by decide, convert_persists_processing_defaults exSt "u" "score_u_1" exReq 5 (by decide)⟩

/-! ## Facts about the delete path -/

theorem delScoreConversions_typed (st : KV) (user scoreId : String) :
    ∀ v ∈ delScoreConversions st user scoreId,
      ∃ c : Conversion, v = .conv c ∧ c.scoreId = scoreId := by
  intro v hv
  rw [delScoreConversions, List.mem_filter] at hv
  obtain ⟨hmem, hfil⟩ := hv
  cases v with
  | score s => simp [KVValue.scoreIdField] at hfil
  | index l => simp [KVValue.scoreIdField] at hfil
  | conv c =>
    refine ⟨c, rfl, ?_⟩
    simpa [KVValue.scoreIdField] using hfil

theorem convIndexWF_spec {st : KV} {u : String} (h : convIndexWF st u = true) :
    ∀ cid ∈ indexOr (st (userConversionsKey u)),
      ∀ c : Conversion, st cid = some (.conv c) → c.id = cid := by
  intro cid hcid c hc
  rw [convIndexWF, List.all_eq_true] at h
  have h2 := h cid (by simpa [kv.get] using hcid)
  rw [hc] at h2
  simpa using h2

theorem indexKeyWF_spec {st : KV} {k : String} (h : indexKeyWF st k = true) :
    st k = none ∨ ∃ l, st k = some (.index l) := by
  rw [indexKeyWF] at h
  cases hk : st k with
  | none => exact .inl rfl
  | some v =>
    rw [hk] at h
    cases v with
    | index l => exact .inr ⟨l, rfl⟩
    | score s => simp at h
    | conv c => simp at h

theorem indexOr_mem_elim {v : Option KVValue} {x : String}
    (hx : x ∈ indexOr v) : ∃ l, v = some (.index l) ∧ x ∈ l := by
  match v with
  | some (.index l) => exact ⟨l, rfl, hx⟩
  | some (.score s) => simp [indexOr] at hx
  | some (.conv c) => simp [indexOr] at hx
  | none => simp [indexOr] at hx

theorem deleteScoreOwned_at_other (st : KV) (user scoreId k : String)
    (h1 : k ≠ userScoresKey user) (h2 : k ≠ scoreId)
    (h3 : k ≠ userConversionsKey user) :
    deleteScoreOwned st user scoreId k =
      ((delScoreConversions st user scoreId).foldl delOne st) k := by
  rw [deleteScoreOwned]
  simp [kv.set, kv.del, kv.get, h1, h2, h3]

theorem deleteScoreOwned_at_scoreId (st : KV) (user scoreId : String)
    (h1 : scoreId ≠ userScoresKey user) :
    deleteScoreOwned st user scoreId scoreId = none := by
  rw [deleteScoreOwned]
  simp [kv.set, kv.del, kv.get, h1]

theorem deleteScoreOwned_at_convKey (st : KV) (user scoreId : String)
    (h1 : userConversionsKey user ≠ userScoresKey user)
    (h2 : userConversionsKey user ≠ scoreId) :
    deleteScoreOwned st user scoreId (userConversionsKey user) =
      some (.index ((indexOr (kv.get st (userConversionsKey user))).filter
        fun i => ! (delScoreConversions st user scoreId).any
          fun c => c.idField == some i)) := by
  rw [deleteScoreOwned]
  simp [kv.set, kv.del, kv.get, h1, h2]

/-- Claim C1 (counterexample): a Conversion still in `processing` state when
the delete runs is NOT removed: it is absent from the conversion index
(completion has not appended it yet), so the delete handler's index scan
never sees it; after the delete reports success, a Status Read on its id
still returns the full processing record — not `NotFoundOrForbidden`. -/
theorem delete_misses_processing_conversion :
    exStProc "conversion_u_5" = some (.conv exCd) ∧
    exCd.scoreId = "score_u_1" ∧
    exCd.status = .processing ∧
    (deleteScore exStProc "u" "score_u_1").1 =
      .ok "Score and all conversions deleted successfully" ∧
    getConversion (deleteScore exStProc "u" "score_u_1").2 "u" "conversion_u_5" =
      .ok (.conv exCd) := by
  decide

/-- Claim C1 (amended): after Delete Score on an owned Score, the score
record itself is gone, and every Conversion that was reachable through
the user's Conversion index (i.e. had completed) and referenced the
deleted Score is fully removed: its id is absent from the rewritten
index, its record is deleted, and a Status Read on its id returns the
`NotFoundOrForbidden` error.  (A Conversion still in `processing` state
is not in the index and survives — see the counterexample.) -/
theorem delete_score_removes_indexed_conversions (st : KV)
    (user scoreId : String) (s : Score)
    (hs : kv.get st scoreId = some (.score s))
    (hsu : s.userId = user)
    (hcwf : convIndexWF st user = true)
    (hsk : indexKeyWF st (userScoresKey user) = true) :
    (deleteScore st user scoreId).1 =
      .ok "Score and all conversions deleted successfully" ∧
    (deleteScore st user scoreId).2 scoreId = none ∧
    ∀ cid ∈ indexOr (st (userConversionsKey user)),
      ∀ c : Conversion, st cid = some (.conv c) → c.scoreId = scoreId →
        cid ∉ indexOr ((deleteScore st user scoreId).2 (userConversionsKey user)) ∧
        (deleteScore st user scoreId).2 cid = none ∧
        getConversion (deleteScore st user scoreId).2 user cid =
          .error conversionNotFound := by
  simp only [kv.get] at hs
  have hown : ownedBy (kv.get st scoreId) user = true := by
    simp [ownedBy, kv.get, hs, KVValue.userIdField, hsu]
  have hds : deleteScore st user scoreId =
      (.ok "Score and all conversions deleted successfully",
        deleteScoreOwned st user scoreId) := by
    rw [deleteScore, if_pos hown]
  have hscu : scoreId ≠ userScoresKey user := by
    intro he
    rcases indexKeyWF_spec hsk with hn | ⟨l, hl⟩ <;> rw [← he] at * <;>
      simp_all
  refine ⟨by rw [hds], ?_, ?_⟩
  · rw [hds]
    exact deleteScoreOwned_at_scoreId st user scoreId hscu
  intro cid hcid c hc hcs
  obtain ⟨lc, hlc, hcl⟩ := indexOr_mem_elim hcid
  have hF2 : c.id = cid := convIndexWF_spec hcwf cid hcid c hc
  have hF1 : (KVValue.conv c) ∈ delScoreConversions st user scoreId := by
    rw [delScoreConversions, List.mem_filter]
    constructor
    · rw [kv.mget]
      exact List.mem_filterMap.mpr ⟨cid, by simpa [kv.get] using hcid, hc⟩
    · simp [KVValue.scoreIdField, hcs]
  have hF3 : ((delScoreConversions st user scoreId).any
      fun v => v.idField == some cid) = true :=
    List.any_eq_true.mpr ⟨.conv c, hF1, by simp [KVValue.idField, hF2]⟩
  have hnecu : cid ≠ userConversionsKey user := by
    intro he
    rw [← he] at hlc
    rw [hc] at hlc
    cases hlc
  have hnesu : cid ≠ userScoresKey user := by
    intro he
    rcases indexKeyWF_spec hsk with hn | ⟨l, hl⟩ <;> rw [← he] at * <;>
      simp_all
  have hnesc : cid ≠ scoreId := by
    intro he
    rw [he, hs] at hc
    cases hc
  have huckusk : userConversionsKey user ≠ userScoresKey user :=
    Ne.symm (userScoresKey_ne_userConversionsKey user user)
  have hucksc : userConversionsKey user ≠ scoreId := by
    intro he
    rw [← he] at hs
    rw [hs] at hlc
    cases hlc
  have hcidnone : (deleteScoreOwned st user scoreId) cid = none := by
    rw [deleteScoreOwned_at_other st user scoreId cid hnesu hnesc hnecu,
      foldl_delOne_apply, if_pos hF3]
  refine ⟨?_, by rw [hds]; exact hcidnone, ?_⟩
  · rw [hds]
    simp only
    rw [deleteScoreOwned_at_convKey st user scoreId huckusk hucksc]
    simp only [indexOr, List.mem_filter]
    intro hmem
    rw [hF3] at hmem
    simp at hmem
  · rw [hds]
    simp only [getConversion, kv.get, hcidnone]

/-- Witness for `delete_score_removes_indexed_conversions` on the store
where `exCd` has completed (and is therefore indexed). -/
theorem delete_score_removes_indexed_conversions_witness :
    (kv.get exStDone "score_u_1" = some (.score exScore) ∧
     exScore.userId = "u" ∧
     convIndexWF exStDone "u" = true ∧
     indexKeyWF exStDone (userScoresKey "u") = true) ∧
    ((deleteScore exStDone "u" "score_u_1").1 =
       .ok "Score and all conversions deleted successfully" ∧
     (deleteScore exStDone "u" "score_u_1").2 "score_u_1" = none ∧
     ∀ cid ∈ indexOr (exStDone (userConversionsKey "u")),
       ∀ c : Conversion, exStDone cid = some (.conv c) →
         c.scoreId = "score_u_1" →
         cid ∉ indexOr ((deleteScore exStDone "u" "score_u_1").2
           (userConversionsKey "u")) ∧
         (deleteScore exStDone "u" "score_u_1").2 cid = none ∧
         getConversion (deleteScore exStDone "u" "score_u_1").2 "u" cid =
           .error conversionNotFound) :=
  ⟨⟨by decide, by decide, by decide, by decide⟩,
    delete_score_removes_indexed_conversions exStDone "u" "score_u_1" exScore
      (by decide) (by decide) (by decide) (by decide)⟩

/-! ## Facts about the library listing -/

theorem libLe_trans : ∀ a b c : LibEntry,
    libLe a b = true → libLe b c = true → libLe a c = true := by
  intro a b c hab hbc
  simp only [libLe, decide_eq_true_eq] at *
  omega

theorem libLe_total : ∀ a b : LibEntry, (libLe a b || libLe b a) = true := by
  intro a b
  simp only [libLe, Bool.or_eq_true, decide_eq_true_eq]
  omega

/-- Claim C7 (confirmed): for an authenticated user, Library Listing
returns exactly the documents reachable from the user's Score index
(index entries whose target is missing are silently omitted by the
multi-get), each a Score carrying the fetched Conversions whose
`scoreId` equals that Score's id, the outer list sorted by `uploadedAt`
descending; an empty Score index yields an empty list, not an error. -/
theorem library_listing_spec (st : KV) (user : String)
    (hswf : scoreIndexWF st user = true)
    (hcwf : convIndexWF st user = true) :
    ((library st user).map LibEntry.val).Perm
      (kv.mget st (indexOr (kv.get st (userScoresKey user)))) ∧
    (∀ e ∈ library st user, ∃ s : Score, e.val = .score s ∧
      e.conversions =
        (kv.mget st (indexOr (kv.get st (userConversionsKey user)))).filter
          fun c => c.scoreIdField == some s.id) ∧
    (library st user).Pairwise
      (fun a b => uploadedAtNum b.val ≤ uploadedAtNum a.val) ∧
    (indexOr (kv.get st (userScoresKey user)) = [] → library st user = []) := by
  have hlib : library st user =
      ((kv.mget st (indexOr (kv.get st (userScoresKey user)))).map fun s =>
        LibEntry.mk s
          ((kv.mget st (indexOr (kv.get st (userConversionsKey user)))).filter
            fun c => jsKey c.scoreIdField == jsKey s.idField)).mergeSort
        libLe := rfl
  refine ⟨?_, ?_, ?_, ?_⟩
  · rw [hlib]
    have hp := (List.mergeSort_perm
      ((kv.mget st (indexOr (kv.get st (userScoresKey user)))).map fun s =>
        LibEntry.mk s
          ((kv.mget st (indexOr (kv.get st (userConversionsKey user)))).filter
            fun c => jsKey c.scoreIdField == jsKey s.idField))
      libLe).map LibEntry.val
    simpa [List.map_map, Function.comp_def, List.map_id'] using hp
  · intro e he
    rw [hlib] at he
    have he2 := (List.mergeSort_perm _ libLe).mem_iff.mp he
    obtain ⟨v, hv, rfl⟩ := List.mem_map.mp he2
    obtain ⟨sid, hsid, hstv⟩ := List.mem_filterMap.mp (by simpa [kv.mget] using hv)
    rw [scoreIndexWF, List.all_eq_true] at hswf
    have h2 := hswf sid (by simpa [kv.get] using hsid)
    rw [hstv] at h2
    cases v with
    | conv c => simp at h2
    | index l => simp at h2
    | score s =>
      refine ⟨s, rfl, ?_⟩
      apply List.filter_congr
      intro c hcmem
      obtain ⟨cid2, hcid2, hstc⟩ :=
        List.mem_filterMap.mp (by simpa [kv.mget] using hcmem)
      rw [convIndexWF, List.all_eq_true] at hcwf
      have h3 := hcwf cid2 (by simpa [kv.get] using hcid2)
      rw [hstc] at h3
      cases c with
      | score s2 => simp at h3
      | index l => simp at h3
      | conv cc =>
        simp only [jsKey, KVValue.scoreIdField, KVValue.idField]
        rw [Bool.eq_iff_iff]
        simp
  · rw [hlib]
    exact (List.sorted_mergeSort libLe_trans libLe_total _).imp
      fun hab => by simpa [libLe] using hab
  · intro h0
    rw [hlib, h0]
    simp [kv.mget]

/-- Witness for `library_listing_spec` on a store with two scores and one
completed conversion. -/
theorem library_listing_spec_witness :
    (scoreIndexWF exStLib "u" = true ∧ convIndexWF exStLib "u" = true) ∧
    (((library exStLib "u").map LibEntry.val).Perm
       (kv.mget exStLib (indexOr (kv.get exStLib (userScoresKey "u")))) ∧
     (∀ e ∈ library exStLib "u", ∃ s : Score, e.val = .score s ∧
       e.conversions =
         (kv.mget exStLib (indexOr (kv.get exStLib (userConversionsKey "u")))).filter
           fun c => c.scoreIdField == some s.id) ∧
     (library exStLib "u").Pairwise
       (fun a b => uploadedAtNum b.val ≤ uploadedAtNum a.val) ∧
     (indexOr (kv.get exStLib (userScoresKey "u")) = [] → library exStLib "u" = [])) :=
  ⟨⟨by decide, by decide⟩,
    library_listing_spec exStLib "u" (by decide) (by decide)⟩

end SheetToSound
